import Mathlib

/-!
Verification of the kore CLI build pipeline (`src/cli.c`).

This file gives a shallow embedding of the staleness oracle
(`cli_file_requires_build`), the asset embedder (`cli_build_asset`,
`cli_write_asset`), the compilation-unit registry (`cli_add_cfile`,
`cli_register_cfile`), the compile/link orchestration of `cli_build`
(`cli_link_library`), and the subprocess supervisor (`cli_spawn_proc`),
and proves properties about them.

Modelling conventions:
* `time_t` modification times are `Int`; `off_t` sizes are the length of
  the modelled byte list.
* The set of existing object files (`.objs` directory) is an association
  list from path to mtime, where the first binding wins; a missing key
  models `stat` failing with `ENOENT`.
* `cli_fatal` (which prints and exits the process) is modelled by
  `Except.error` or by a dedicated `fatal` constructor.
* Functions whose only use of an argument is in unmodelled I/O (for
  example `fpath` in `cli_build_asset`, which is only opened, `stat`ed,
  `mmap`ed, and echoed in fatal messages of those unmodelled operations)
  keep the argument, unused, so dependence can be stated.
-/

set_option linter.unusedVariables false

namespace KoreCli

/-- Object-file store: path to mtime, first binding wins (models the
`.objs` directory contents as seen by `stat`). -/
abbrev FS := List (String × Int)

/-- Look a path up in the object store (the mtime `stat` would report). -/
def fsLookup : FS → String → Option Int
  | [], _ => none
  | (q, m) :: rest, p => if q = p then some m else fsLookup rest p

/-- `utimes(path, mtime)`: record a new mtime for a path. -/
def fsSet (fs : FS) (p : String) (m : Int) : FS :=
  (p, m) :: fs

/-- errno value for "No such file or directory". -/
def ENOENT : Nat := 2

/-- Result of `stat(2)` on a path: the file's mtime on success,
otherwise the errno it failed with. -/
inductive StatResult where
  | found (mtime : Int)
  | failed (errno : Nat)
deriving DecidableEq, Repr

/-- `stat` on the modelled object store never fails for a reason other
than absence: present paths report their mtime, absent ones `ENOENT`. -/
def statOf (fs : FS) (p : String) : StatResult :=
  match fsLookup fs p with
  | some m => .found m
  | none => .failed ENOENT

/-- `cli_file_requires_build` (cli.c:474-486).  `fstMtime` is
`fst->st_mtime` of the source; `st` is the outcome of `stat(opath)`.
`ENOENT` means no object: rebuild.  Any other `stat` failure is
`cli_fatal` (modelled as `Except.error`).  Otherwise rebuild iff the
object's mtime is not bit-equal to the source's. -/
def cli_file_requires_build (fstMtime : Int) (opath : String) (st : StatResult) :
    Except String Bool :=
  match st with
  | .failed e =>
      if e = ENOENT then .ok true
      else .error ("stat(" ++ opath ++ ")")
  | .found m => .ok (fstMtime != m)

/-- The staleness oracle specialised to the modelled object store, where
the only `stat` failure is `ENOENT` (used by the build pipeline). -/
def requiresRebuild (mtime : Int) (opath : String) (fs : FS) : Bool :=
  match fsLookup fs opath with
  | none => true
  | some m => mtime != m

/-- C `isspace` in the default locale. -/
def c_isspace (c : Char) : Bool :=
  c = ' ' || c = '\t' || c = '\n' || c = '\x0b' || c = '\x0c' || c = '\r'

/-- The sanitising loop of `cli_build_asset` (cli.c:596-599): dots,
whitespace and dashes become underscores. -/
def sanitizeChar (c : Char) : Char :=
  if c = '.' || c_isspace c || c = '-' then '_' else c

/-- Sanitise a whole name, character by character. -/
def sanitize (cs : List Char) : List Char :=
  cs.map sanitizeChar

/-- Sanitise a name given as a string. -/
def sanitizeStr (s : String) : String :=
  String.mk (sanitize s.data)

/-- Index of the last `'.'` in a name (`strrchr(name, '.')` as an
offset), `none` when there is no dot. -/
def lastDotIdx : List Char → Option Nat
  | [] => none
  | c :: rest =>
    match lastDotIdx rest with
    | some i => some (i + 1)
    | none => if c = '.' then some 0 else none

/-- Suffix of a name starting at the last `'.'` (`strrchr(name, '.')`
as the pointed-to suffix), `none` when there is no dot. -/
def lastDotSuffix : List Char → Option (List Char)
  | [] => none
  | c :: rest =>
    match lastDotSuffix rest with
    | some s => some s
    | none => if c = '.' then some (c :: rest) else none

/-- A compilation unit, `struct cfile` (cli.c:73-81).  Only `st_mtime`
of the captured `struct stat` is modelled. -/
structure CFile where
  mtime : Int
  build : Bool
  cpp : Bool
  name : String
  fpath : String
  opath : String
deriving DecidableEq, Repr

/-- `cli_write_asset` (cli.c:571-577): the three `extern` forward
declarations written into `assets.h` for one asset. -/
def cli_write_asset (n e : String) : List String :=
  [ "extern u_int8_t asset_" ++ n ++ "_" ++ e ++ "[];\n",
    "extern u_int32_t asset_len_" ++ n ++ "_" ++ e ++ ";\n",
    "extern time_t asset_mtime_" ++ n ++ "_" ++ e ++ ";\n" ]

/-- One lowercase hex digit, as printed by `%02x`. -/
def hexDigit (n : Nat) : Char :=
  if n < 10 then Char.ofNat ('0'.toNat + n)
  else Char.ofNat ('a'.toNat + (n - 10))

/-- `"0x%02x"` applied to a byte value (< 256): `0x` then exactly two
lowercase hex digits. -/
def hexByte (b : Nat) : String :=
  String.mk ['0', 'x', hexDigit (b / 16 % 16), hexDigit (b % 16)]

/-- Value of one hex digit character, `none` for a non-digit. -/
def hexDigitVal (c : Char) : Option Nat :=
  if '0' ≤ c ∧ c ≤ '9' then some (c.toNat - '0'.toNat)
  else if 'a' ≤ c ∧ c ≤ 'f' then some (c.toNat - 'a'.toNat + 10)
  else if 'A' ≤ c ∧ c ≤ 'F' then some (c.toNat - 'A'.toNat + 10)
  else none

/-- Accumulating evaluation of a hex digit string. -/
def hexDigitsVal : List Char → Option Nat → Option Nat
  | [], acc => acc
  | c :: rest, acc =>
      hexDigitsVal rest (acc.bind fun a => (hexDigitVal c).map fun v => 16 * a + v)

/-- Numeric value denoted by a C hexadecimal literal `0x...`
(independent reading of the generated text, used to check that the
emitted literals denote the asset's bytes). -/
def hexLitVal (s : String) : Option Nat :=
  match s.data with
  | '0' :: 'x' :: ds => if ds.isEmpty then none else hexDigitsVal ds (some 0)
  | _ => none

/-- The generated companion source for one stale asset, i.e. the writes
of cli.c:640-662 to `<approot>/.objs/<name>.c`.  Each element of
`arrayTokens` is one `cli_file_writef` inside the byte array: one
`"0x%02x,"` per input byte, then the un-counted `"0x00"` terminator. -/
structure GenAsset where
  header : List String
  declLine : String
  arrayTokens : List String
  closing : String
  lenLine : String
  lenConst : Nat
  mtimeLine : String
  mtimeConst : Int
deriving DecidableEq, Repr

/-- Generation of the companion `.c` file (stale branch of
`cli_build_asset`, cli.c:640-662).  `n`/`e` are the sanitised stem and
extension; `data` the mmap'ed bytes (each < 256, `% 256` models the
`u_int8_t` read); the length constant is `(u_int32_t)st.st_size`. -/
def cli_gen_asset (n e : String) (data : List Nat) (mtime : Int) : GenAsset :=
  { header := ["/* Auto generated */\n", "#include <sys/param.h>\n\n"],
    declLine := "u_int8_t asset_" ++ n ++ "_" ++ e ++ "[] = \x7b\n",
    arrayTokens := data.map (fun b => hexByte (b % 256) ++ ",") ++ ["0x00"],
    closing := "\x7d;\n\n",
    lenConst := data.length % 2 ^ 32,
    lenLine := "u_int32_t asset_len_" ++ n ++ "_" ++ e ++ " = " ++
      toString (data.length % 2 ^ 32) ++ ";\n",
    mtimeConst := mtime,
    mtimeLine := "time_t asset_mtime_" ++ n ++ "_" ++ e ++ " = " ++
      toString mtime ++ ";\n" }

/-- Outcome of `cli_build_asset` for one discovered asset file:
either `cli_fatal`, or a diagnostic skip, or a registered compilation
unit together with the `assets.h` symbol lines and (when stale) the
generated companion source. -/
inductive AssetResult where
  | fatal (msg : String)
  | skipped (diag : String)
  | registered (cf : CFile) (symbols : List String) (gen : Option GenAsset)
deriving DecidableEq, Repr

/-- Compilation units registered by an asset-build outcome. -/
def AssetResult.units : AssetResult → List CFile
  | .registered cf _ _ => [cf]
  | _ => []

/-- `assets.h` lines emitted by an asset-build outcome. -/
def AssetResult.symbols : AssetResult → List String
  | .registered _ s _ => s
  | _ => []

/-- Generated companion source of an asset-build outcome, if any. -/
def AssetResult.genSource : AssetResult → Option GenAsset
  | .registered _ _ g => g
  | _ => none

/-- Whether the outcome was `cli_fatal` (whole build aborts). -/
def AssetResult.isFatal : AssetResult → Bool
  | .fatal _ => true
  | _ => false

/-- `cli_build_asset` (cli.c:579-681).  `dName` is `dp->d_name` (the
basename), `fpath` the full path (used only by unmodelled I/O), `mtime`
and `data` the `stat`/`mmap` results for the asset file, `fs` the
object store.  Mirrors the source order: find the last dot in the
original name (fatal if none), sanitise, skip empty files, compute
object/companion paths from the sanitised basename, then either
re-register a non-stale unit (`build = false`; the in-place `'\0'`
truncation leaves the registered name as the stem) or generate the
companion source and register a stale unit (`build = true`; the final
`*--ext = '.'` restores the dot, so the registered name is
`stem ++ "." ++ ext`).  Both branches emit the `cli_write_asset`
forward declarations. -/
def cli_build_asset (rootdir dName fpath : String) (mtime : Int)
    (data : List Nat) (fs : FS) : AssetResult :=
  match lastDotIdx dName.data with
  | none => .fatal ("couldn't find ext in " ++ dName)
  | some i =>
    let name := sanitize dName.data
    if data.length = 0 then
      .skipped ("skipping empty asset " ++ String.mk name)
    else
      let opath := rootdir ++ "/.objs/" ++ String.mk name ++ ".o"
      let cpath := rootdir ++ "/.objs/" ++ String.mk name ++ ".c"
      let stem := String.mk (name.take i)
      let ext := String.mk (name.drop (i + 1))
      if requiresRebuild mtime opath fs then
        .registered
          { mtime := mtime, build := true, cpp := false,
            name := stem ++ "." ++ ext, fpath := cpath, opath := opath }
          (cli_write_asset stem ext)
          (some (cli_gen_asset stem ext data mtime))
      else
        .registered
          { mtime := mtime, build := false, cpp := false,
            name := stem, fpath := cpath, opath := opath }
          (cli_write_asset stem ext)
          none

/-- `cli_register_cfile` (cli.c:702-728).  `dName` is `dp->d_name`,
`fpath` the walker-built full path, `mtime` the source's `st_mtime`
(its `stat` is assumed successful; failure would be `cli_fatal`).
Returns the registered unit, if any, plus the diagnostics printed
(this function prints none).  Files whose path has no `'.'`, or whose
suffix from the last `'.'` is neither `".c"` nor `".cpp"`, are ignored
without output. -/
def cli_register_cfile (rootdir dName fpath : String) (mtime : Int)
    (fs : FS) : Option CFile × List String :=
  match lastDotSuffix fpath.data with
  | none => (none, [])
  | some ext =>
    if ext = ".c".data ∨ ext = ".cpp".data then
      let opath := rootdir ++ "/.objs/" ++ dName ++ ".o"
      (some { mtime := mtime, build := requiresRebuild mtime opath fs,
              cpp := decide (ext = ".cpp".data), name := dName,
              fpath := fpath, opath := opath }, [])
    else (none, [])

/-- The compile loop of `cli_build` (cli.c:349-364), success path: each
unit flagged for rebuild is compiled (`cli_spawn_proc cli_compile_cfile`)
and its fresh object is stamped via `utimes` with the source mtime
captured at discovery.  Returns the compiled units in order and the
resulting object store. -/
def compileLoop : List CFile → FS → List CFile × FS
  | [], fs => ([], fs)
  | cf :: rest, fs =>
    if cf.build then
      let r := compileLoop rest (fsSet fs cf.opath cf.mtime)
      (cf :: r.1, r.2)
    else compileLoop rest fs

/-- `cli_link_library` (cli.c:952-1003), non-Mach branch: the linker
argument vector.  `cxxlib` models the `CXXLIB` override, `ldflags` the
already-split `LDFLAGS` words. -/
def cli_link_library (compiler rootdir appl : String) (cfiles : List CFile)
    (cxxlib : Option String) (ldflags : List String) : List String :=
  [compiler, "-shared"]
    ++ cfiles.map (·.opath)
    ++ (if cfiles.any (·.cpp) then
          [match cxxlib with
           | some l => "-l" ++ l
           | none => "-lstdc++"]
        else [])
    ++ ldflags
    ++ ["-o", rootdir ++ "/" ++ appl ++ ".so"]

/-- Observable outcome of the back half of `cli_build`: the compiled
units, the final object store, the linker invocations (argument vectors)
and the closing message. -/
structure BuildResult where
  compiles : List CFile
  fs : FS
  links : List (List String)
  msgs : List String
deriving DecidableEq, Repr

/-- The back half of `cli_build` (cli.c:347-382): run the compile loop,
then link exactly once iff `requires_relink` is non-zero, else print
"nothing to be done". -/
def cli_build_rest (compiler rootdir appl : String) (units : List CFile)
    (fs : FS) (cxxlib : Option String) (ldflags : List String) : BuildResult :=
  let r := compileLoop units fs
  if r.1.isEmpty then
    { compiles := r.1, fs := r.2, links := [], msgs := ["nothing to be done"] }
  else
    { compiles := r.1, fs := r.2,
      links := [cli_link_library compiler rootdir appl units cxxlib ldflags],
      msgs := [appl ++ " built successfully!"] }

/-- Discovery-time flagging: every registration path
(`cli_register_cfile`, `cli_build_asset`) sets a unit's `build` flag
from `cli_file_requires_build` against the object store as it stands at
discovery, before any compilation. -/
def setFlags (units : List CFile) (fs : FS) : List CFile :=
  units.map fun u => { u with build := requiresRebuild u.mtime u.opath fs }

/-- One whole `cli build` invocation over an already-discovered unit
list: re-derive every `build` flag from the filesystem, then compile
and link. -/
def runOnce (compiler rootdir appl : String) (protos : List CFile)
    (fs : FS) (cxxlib : Option String) (ldflags : List String) : BuildResult :=
  cli_build_rest compiler rootdir appl (setFlags protos fs) fs cxxlib ldflags

/-- `WEXITSTATUS` on a Linux wait status word. -/
def WEXITSTATUS (s : Nat) : Nat := s / 256 % 256

/-- `WTERMSIG` on a Linux wait status word. -/
def WTERMSIG (s : Nat) : Nat := s % 128

/-- `WCOREDUMP` on a Linux wait status word (bit 7). -/
def WCOREDUMP (s : Nat) : Bool := s % 256 / 128 == 1

/-- The supervisor's verdict on one wait status (cli.c:1042):
`WEXITSTATUS(status) || WTERMSIG(status) || WCOREDUMP(status)`. -/
def spawnFailed (s : Nat) : Bool :=
  WEXITSTATUS s != 0 || WTERMSIG s != 0 || WCOREDUMP s

/-- Parent-side handling of one child's wait status: `cli_fatal` with
the generic message on any failure, success otherwise. -/
def spawnCheck (status : Nat) : Except String Unit :=
  if spawnFailed status then .error "subprocess trouble, check output"
  else .ok ()

/-- `cli_spawn_proc` (cli.c:1020-1044), parent side: `waitpid` on the
specific forked child pid, then judge its status.  `wait` maps a pid to
the status `waitpid` reports for it. -/
def cli_spawn_proc (pid : Nat) (wait : Nat → Nat) : Except String Unit :=
  spawnCheck (wait pid)

/-- The compile loop with subprocess outcomes: `st` gives the wait
status of the compiler child spawned for a unit.  Returns the spawn
trace (units for which a compiler process was spawned, in order) and
whether the build aborted (`cli_fatal` exits the process, so nothing
runs after the first failure). -/
def compileTrace : List CFile → (CFile → Nat) → List CFile × Bool
  | [], _ => ([], false)
  | cf :: rest, st =>
    if cf.build then
      match spawnCheck (st cf) with
      | .error _ => ([cf], true)
      | .ok _ =>
        let r := compileTrace rest st
        (cf :: r.1, r.2)
    else compileTrace rest st

/-! Concrete fixtures: two same-named assets discovered in different
subdirectories of `assets/` (the walker recurses, `dp->d_name` is the
basename), and a well-separated two-unit project. -/

/-- Asset `assets/a/foo.txt`, mtime 1, one byte. -/
def exAsset1 : AssetResult :=
  cli_build_asset "app" "foo.txt" "app/assets/a/foo.txt" 1 [65] []

/-- Asset `assets/b/foo.txt`, mtime 2, one byte. -/
def exAsset2 : AssetResult :=
  cli_build_asset "app" "foo.txt" "app/assets/b/foo.txt" 2 [66] []

/-- The registry discovered from the two colliding assets. -/
def exProtos : List CFile := exAsset1.units ++ exAsset2.units

/-- First build over the colliding registry, empty object store. -/
def exRun1 : BuildResult := runOnce "gcc" "app" "app" exProtos [] none []

/-- Second build, no filesystem change in between. -/
def exRun2 : BuildResult := runOnce "gcc" "app" "app" exProtos exRun1.fs none []

/-- A registry with pairwise-distinct object paths. -/
def exGoodProtos : List CFile :=
  [⟨3, true, false, "a.c", "app/src/a.c", "app/.objs/a.c.o"⟩,
   ⟨7, false, false, "b.c", "app/src/b.c", "app/.objs/b.c.o"⟩]

/-! Helper lemmas. -/

theorem str_data_append (s t : String) : (s ++ t).data = s.data ++ t.data := by
  cases s; cases t; rfl

theorem str_append_inj (a b x y : String) (h : a ++ x ++ b = a ++ y ++ b) :
    x = y := by
  have h' := congrArg String.data h
  rw [str_data_append, str_data_append, str_data_append, str_data_append] at h'
  have h2 : x.data = y.data := by
    have := List.append_cancel_right h'
    exact List.append_cancel_left this
  exact congrArg String.mk h2

theorem fsLookup_fsSet_self (fs : FS) (p : String) (m : Int) :
    fsLookup (fsSet fs p m) p = some m := by
  simp [fsSet, fsLookup]

theorem fsLookup_fsSet_ne (fs : FS) (p q : String) (m : Int) (h : q ≠ p) :
    fsLookup (fsSet fs q m) p = fsLookup fs p := by
  simp [fsSet, fsLookup, h]

theorem requiresRebuild_eq_false_iff (m : Int) (p : String) (fs : FS) :
    requiresRebuild m p fs = false ↔ fsLookup fs p = some m := by
  unfold requiresRebuild
  cases h : fsLookup fs p with
  | none => simp
  | some om =>
    simp only [bne_eq_false_iff_eq, Option.some.injEq]
    exact eq_comm

theorem oracle_agrees (m : Int) (p : String) (fs : FS) :
    cli_file_requires_build m p (statOf fs p) = .ok (requiresRebuild m p fs) := by
  unfold cli_file_requires_build statOf requiresRebuild
  cases h : fsLookup fs p <;> simp

theorem compileLoop_fst : ∀ (units : List CFile) (fs : FS),
    (compileLoop units fs).1 = units.filter (·.build) := by
  intro units
  induction units with
  | nil => intro fs; rfl
  | cons u rest ih =>
    intro fs
    by_cases h : u.build <;> simp [compileLoop, h, List.filter_cons, ih]

theorem compileLoop_snd_untouched : ∀ (units : List CFile) (fs : FS) (p : String),
    (∀ u ∈ units, u.build = true → u.opath ≠ p) →
    fsLookup (compileLoop units fs).2 p = fsLookup fs p := by
  intro units
  induction units with
  | nil => intro fs p _; rfl
  | cons u rest ih =>
    intro fs p hp
    by_cases h : u.build
    · have hne : u.opath ≠ p := hp u (by simp) h
      simp only [compileLoop, h, if_true]
      rw [ih _ _ (fun v hv hb => hp v (by simp [hv]) hb)]
      exact fsLookup_fsSet_ne fs p u.opath u.mtime hne
    · simp only [compileLoop, h, if_false]
      exact ih _ _ (fun v hv hb => hp v (by simp [hv]) hb)

theorem compileLoop_snd_compiled : ∀ (units : List CFile) (fs : FS) (u : CFile),
    (units.map (·.opath)).Nodup → u ∈ units → u.build = true →
    fsLookup (compileLoop units fs).2 u.opath = some u.mtime := by
  intro units
  induction units with
  | nil => intro fs u _ hu _; cases hu
  | cons v rest ih =>
    intro fs u hnd hu hb
    rcases List.mem_cons.mp hu with rfl | hmem
    · simp only [compileLoop, hb, if_true]
      have hnotin : u.opath ∉ rest.map (·.opath) :=
        (List.nodup_cons.mp (by simpa using hnd)).1
      rw [compileLoop_snd_untouched rest _ u.opath
          (fun w hw _ heq => hnotin (heq ▸ List.mem_map_of_mem _ hw))]
      exact fsLookup_fsSet_self fs u.opath u.mtime
    · have hnd' : (rest.map (·.opath)).Nodup :=
        (List.nodup_cons.mp (by simpa using hnd)).2
      by_cases hv : v.build <;>
        simp only [compileLoop, hv, if_true, if_false] <;>
        exact ih _ u hnd' hmem hb

theorem compileLoop_all_false : ∀ (units : List CFile) (fs : FS),
    (∀ u ∈ units, u.build = false) → compileLoop units fs = ([], fs) := by
  intro units
  induction units with
  | nil => intro fs _; rfl
  | cons u rest ih =>
    intro fs h
    have hu : u.build = false := h u (by simp)
    simp only [compileLoop, hu, if_false, Bool.false_eq_true]
    exact ih fs (fun v hv => h v (by simp [hv]))

theorem setFlags_map_opath : ∀ (protos : List CFile) (fs : FS),
    (setFlags protos fs).map (·.opath) = protos.map (·.opath) := by
  intro protos fs
  induction protos with
  | nil => rfl
  | cons u rest ih => simp [setFlags]

theorem runOnce_fs (compiler rootdir appl : String) (protos : List CFile)
    (fs : FS) (cxxlib : Option String) (ldflags : List String) :
    (runOnce compiler rootdir appl protos fs cxxlib ldflags).fs
      = (compileLoop (setFlags protos fs) fs).2 := by
  unfold runOnce cli_build_rest
  by_cases h : (compileLoop (setFlags protos fs) fs).1.isEmpty <;> simp [h]

theorem runOnce_fs_lookup (compiler rootdir appl : String) (protos : List CFile)
    (fs : FS) (cxxlib : Option String) (ldflags : List String)
    (hnd : (protos.map (·.opath)).Nodup) (u : CFile) (hu : u ∈ protos) :
    fsLookup (runOnce compiler rootdir appl protos fs cxxlib ldflags).fs u.opath
      = some u.mtime := by
  rw [runOnce_fs]
  have hnd' : ((setFlags protos fs).map (·.opath)).Nodup := by
    rw [setFlags_map_opath]; exact hnd
  by_cases hb : requiresRebuild u.mtime u.opath fs
  · have hu' : ({ u with build := requiresRebuild u.mtime u.opath fs } : CFile)
        ∈ setFlags protos fs := List.mem_map_of_mem _ hu
    have := compileLoop_snd_compiled (setFlags protos fs) fs _ hnd' hu' (by simpa using hb)
    simpa using this
  · rw [compileLoop_snd_untouched (setFlags protos fs) fs u.opath ?_]
    · exact (requiresRebuild_eq_false_iff _ _ _).mp (by simpa using hb)
    · intro w hw hwb heq
      obtain ⟨v, hv, rfl⟩ := List.mem_map.mp hw
      have hveq : v = u := by
        have : v.opath = u.opath := heq
        exact List.inj_on_of_nodup_map hnd hv hu this
      subst hveq
      rw [show ({ v with build := requiresRebuild v.mtime v.opath fs } : CFile).build
            = requiresRebuild v.mtime v.opath fs from rfl] at hwb
      exact hb (by simp [hwb])

theorem hexDigit_val : ∀ n, n < 16 → hexDigitVal (hexDigit n) = some n := by decide

theorem hexByte_val (b : Nat) (hb : b < 256) : hexLitVal (hexByte b) = some b := by
  have e1 := hexDigit_val (b / 16 % 16) (Nat.mod_lt _ (by norm_num))
  have e2 := hexDigit_val (b % 16) (Nat.mod_lt _ (by norm_num))
  simp [hexLitVal, hexByte, hexDigitsVal, e1, e2]
  omega

theorem lastDotSuffix_cons (c : Char) (l : List Char) :
    lastDotSuffix (c :: l) = match lastDotSuffix l with
      | some s => some s
      | none => if c = '.' then some (c :: l) else none := rfl

theorem lastDotSuffix_isSome : ∀ (cs : List Char), '.' ∈ cs →
    ∃ s, lastDotSuffix cs = some s := by
  intro cs
  induction cs with
  | nil => intro h; cases h
  | cons c rest ih =>
    intro h
    cases hr : lastDotSuffix rest with
    | some s => exact ⟨s, by rw [lastDotSuffix_cons, hr]⟩
    | none =>
      rcases List.mem_cons.mp h with hc | hm
      · exact ⟨c :: rest, by rw [lastDotSuffix_cons, hr]; simp [← hc]⟩
      · obtain ⟨s, hs⟩ := ih hm
        rw [hs] at hr; cases hr

theorem lastDotSuffix_eq_none : ∀ (cs : List Char), '.' ∉ cs →
    lastDotSuffix cs = none := by
  intro cs
  induction cs with
  | nil => intro _; rfl
  | cons c rest ih =>
    intro h
    have hc : ¬ c = '.' := fun hc => h (by simp [hc])
    rw [lastDotSuffix_cons, ih (fun hm => h (List.mem_cons_of_mem _ hm))]
    simp [hc]

theorem lastDotSuffix_append_right : ∀ (xs ys : List Char), '.' ∈ ys →
    lastDotSuffix (xs ++ ys) = lastDotSuffix ys := by
  intro xs ys hy
  induction xs with
  | nil => rfl
  | cons x xs ih =>
    obtain ⟨s, hs⟩ := lastDotSuffix_isSome (xs ++ ys) (List.mem_append.mpr (Or.inr hy))
    rw [List.cons_append, lastDotSuffix_cons, hs]
    exact (ih ▸ hs).symm

theorem lastDotSuffix_append_left : ∀ (xs ys : List Char), '.' ∉ ys →
    lastDotSuffix (xs ++ ys) = (lastDotSuffix xs).map (· ++ ys) := by
  intro xs ys hy
  induction xs with
  | nil => simp [lastDotSuffix_eq_none ys hy, lastDotSuffix]
  | cons x xs ih =>
    rw [List.cons_append, lastDotSuffix_cons, ih, lastDotSuffix_cons]
    cases hx : lastDotSuffix xs with
    | some s => simp
    | none => by_cases hc : x = '.' <;> simp [hc, List.cons_append]

theorem lastDotSuffix_head : ∀ (cs s : List Char), lastDotSuffix cs = some s →
    ∃ t, s = '.' :: t := by
  intro cs
  induction cs with
  | nil => intro s h; cases h
  | cons c rest ih =>
    intro s h
    rw [lastDotSuffix_cons] at h
    cases hr : lastDotSuffix rest with
    | some s' =>
      rw [hr] at h
      cases h
      exact ih _ hr
    | none =>
      rw [hr] at h
      by_cases hc : c = '.'
      · rw [if_pos hc] at h
        cases h
        exact ⟨rest, by rw [hc]⟩
      · rw [if_neg hc] at h
        cases h

theorem spawnFailed_false_iff (s : Nat) :
    spawnFailed s = false ↔
      (WEXITSTATUS s = 0 ∧ WTERMSIG s = 0 ∧ WCOREDUMP s = false) := by
  simp [spawnFailed, bne_eq_false_iff_eq, and_assoc]

theorem compileTrace_eq : ∀ (units : List CFile) (st : CFile → Nat),
    compileTrace units st
      = ((units.filter (·.build)).takeWhile (fun u => !spawnFailed (st u))
          ++ ((units.filter (·.build)).dropWhile (fun u => !spawnFailed (st u))).take 1,
        (units.filter (·.build)).any (fun u => spawnFailed (st u))) := by
  intro units st
  induction units with
  | nil => rfl
  | cons u rest ih =>
    by_cases hb : u.build
    · by_cases hf : spawnFailed (st u)
      · simp [compileTrace, hb, spawnCheck, hf, List.filter_cons, List.takeWhile_cons,
          List.dropWhile_cons]
      · simp [compileTrace, hb, spawnCheck, hf, List.filter_cons, List.takeWhile_cons,
          List.dropWhile_cons, ih]
    · simp [compileTrace, hb, List.filter_cons, ih]

theorem sanitize_no_dot (cs : List Char) : '.' ∉ sanitize cs := by
  intro h
  obtain ⟨c, hc, he⟩ := List.mem_map.mp h
  unfold sanitizeChar at he
  split at he
  · exact absurd he (by decide)
  · next hcond => exact hcond (by simp [he])

theorem cli_build_asset_registered_paths (rootdir dName fpath : String)
    (mtime : Int) (data : List Nat) (fs : FS) (cf : CFile) (syms : List String)
    (gen : Option GenAsset)
    (h : cli_build_asset rootdir dName fpath mtime data fs = .registered cf syms gen) :
    cf.opath = rootdir ++ "/.objs/" ++ sanitizeStr dName ++ ".o" ∧
    cf.fpath = rootdir ++ "/.objs/" ++ sanitizeStr dName ++ ".c" := by
  cases hdot : lastDotIdx dName.data with
  | none => simp [cli_build_asset, hdot] at h
  | some i =>
    by_cases hlen : data.length = 0
    · simp [cli_build_asset, hdot, hlen] at h
    · simp only [cli_build_asset, hdot, hlen, if_false, if_true, ite_false] at h
      split at h <;> cases h <;> exact ⟨rfl, rfl⟩

theorem cli_register_cfile_fields (rootdir dName fpath : String) (mtime : Int)
    (fs : FS) (cf : CFile)
    (h : (cli_register_cfile rootdir dName fpath mtime fs).1 = some cf) :
    cf.name = dName ∧ cf.opath = rootdir ++ "/.objs/" ++ dName ++ ".o" := by
  cases hx : lastDotSuffix fpath.data with
  | none => simp [cli_register_cfile, hx] at h
  | some ext =>
    simp only [cli_register_cfile, hx] at h
    by_cases hc : ext = ".c".data ∨ ext = ".cpp".data
    · rw [if_pos hc] at h
      cases h
      exact ⟨rfl, rfl⟩
    · rw [if_neg hc] at h
      simp at h

theorem register_walker_ignored (rootdir dir dName : String) (mtime : Int) (fs : FS)
    (h : ∀ e, lastDotSuffix dName.data = some e →
      e ≠ ".c".data ∧ e ≠ ".cpp".data) :
    cli_register_cfile rootdir dName (dir ++ "/" ++ dName) mtime fs = (none, []) := by
  have hdata : (dir ++ "/" ++ dName).data = dir.data ++ ('/' :: dName.data) := by
    rw [str_data_append, str_data_append]
    simp
  unfold cli_register_cfile
  rw [hdata]
  by_cases hdot : '.' ∈ dName.data
  · have hmem : '.' ∈ ('/' :: dName.data) := List.mem_cons_of_mem _ hdot
    obtain ⟨s, hs⟩ := lastDotSuffix_isSome _ hdot
    rw [lastDotSuffix_append_right _ _ hmem, lastDotSuffix_cons, hs]
    have hne := h s hs
    simp [hne.1, hne.2]
  · have h1 : '.' ∉ ('/' :: dName.data) := by
      intro hm
      rcases List.mem_cons.mp hm with hc | hm'
      · cases hc
      · exact hdot hm'
    rw [lastDotSuffix_append_left _ _ h1]
    cases hx : lastDotSuffix dir.data with
    | none => simp
    | some s =>
      obtain ⟨t, rfl⟩ := lastDotSuffix_head _ _ hx
      have hc : t ++ '/' :: dName.data ≠ ['c'] := by
        intro hEq
        have hsl : '/' ∈ (t ++ '/' :: dName.data) := by simp
        rw [hEq] at hsl
        revert hsl
        decide
      have hcpp : t ++ '/' :: dName.data ≠ ['c', 'p', 'p'] := by
        intro hEq
        have hsl : '/' ∈ (t ++ '/' :: dName.data) := by simp
        rw [hEq] at hsl
        revert hsl
        decide
      simp [hc, hcpp]

theorem register_dName_has_dot (rootdir dir dName : String) (mtime : Int) (fs : FS)
    (cf : CFile)
    (h : (cli_register_cfile rootdir dName (dir ++ "/" ++ dName) mtime fs).1 = some cf) :
    '.' ∈ dName.data := by
  by_contra hdot
  rw [register_walker_ignored rootdir dir dName mtime fs
    (fun e he => by rw [lastDotSuffix_eq_none dName.data hdot] at he; cases he)] at h
  simp at h

/-! Claim theorems. -/

/-- C1: for every source modification time `m` and object path, the
staleness check returns true when `stat` fails with `ENOENT` (no object);
it is fatal when `stat` fails with any other errno; and on success it
returns true iff the object's modification time is not exactly equal to
`m` (bit-equality, not a newer-than comparison). -/
theorem C1_staleness_oracle (m : Int) (opath : String) :
    cli_file_requires_build m opath (.failed ENOENT) = .ok true ∧
    (∀ e : Nat, e ≠ ENOENT →
      cli_file_requires_build m opath (.failed e) = .error ("stat(" ++ opath ++ ")")) ∧
    (∀ om : Int,
      (cli_file_requires_build m opath (.found om) = .ok true ↔ m ≠ om) ∧
      (cli_file_requires_build m opath (.found om) = .ok false ↔ m = om)) := by
  refine ⟨rfl, ?_, ?_⟩
  · intro e he
    simp [cli_file_requires_build, he]
  · intro om
    constructor
    · simp [cli_file_requires_build, bne_iff_ne]
    · simp [cli_file_requires_build, bne_eq_false_iff_eq]

/-- Witness for C1: a non-`ENOENT` errno (13, `EACCES`) is fatal. -/
theorem C1_staleness_oracle_witness :
    (13 ≠ ENOENT) ∧
    cli_file_requires_build 5 "app/.objs/a.c.o" (.failed 13)
      = .error ("stat(" ++ "app/.objs/a.c.o" ++ ")") :=
  ⟨by decide, (C1_staleness_oracle 5 "app/.objs/a.c.o").2.1 13 (by decide)⟩

/-- C4: immediately after the compile of a flagged unit (processing the
registry prefix `pre` and then `cf` itself), the object store records
`cf`'s object at exactly the source mtime captured at discovery.  The
model has no clock input: the stamped value can only be the discovery
mtime, never "now". -/
theorem C4_object_mtime_stamped : ∀ (pre : List CFile) (cf : CFile) (fs : FS),
    cf.build = true →
    fsLookup (compileLoop (pre ++ [cf]) fs).2 cf.opath = some cf.mtime := by
  intro pre
  induction pre with
  | nil =>
    intro cf fs hb
    simp [compileLoop, hb, fsSet, fsLookup]
  | cons p rest ih =>
    intro cf fs hb
    by_cases hp : p.build <;> simp only [List.cons_append, compileLoop, hp, if_true,
      if_false, Bool.false_eq_true] <;> exact ih cf _ hb

/-- Witness for C4 at a concrete one-unit registry. -/
theorem C4_object_mtime_stamped_witness :
    (⟨7, true, false, "a.c", "app/src/a.c", "app/.objs/a.c.o"⟩ : CFile).build = true ∧
    fsLookup (compileLoop
        ([] ++ [⟨7, true, false, "a.c", "app/src/a.c", "app/.objs/a.c.o"⟩]) []).2
        (⟨7, true, false, "a.c", "app/src/a.c", "app/.objs/a.c.o"⟩ : CFile).opath
      = some (⟨7, true, false, "a.c", "app/src/a.c", "app/.objs/a.c.o"⟩ : CFile).mtime :=
  ⟨rfl, C4_object_mtime_stamped []
    ⟨7, true, false, "a.c", "app/src/a.c", "app/.objs/a.c.o"⟩ [] rfl⟩

/-- C7 counterexample: a zero-byte asset named `README` (no extension)
makes the build fail fatally at the extension check, which runs before
the empty-file check — contradicting the claim that every zero-byte
asset is skipped with a diagnostic and never fails the build. -/
theorem C7_counterexample :
    (cli_build_asset "app" "README" "app/assets/README" 1 [] []).isFatal = true ∧
    cli_build_asset "app" "README" "app/assets/README" 1 [] []
      = .fatal "couldn't find ext in README" := by decide

/-- C7 amended: for every zero-byte asset whose filename contains a
`'.'`, the build emits the skip diagnostic and registers no unit, no
generated source and no header symbols, without failing. -/
theorem C7_empty_asset_amended (rootdir dName fpath : String) (mtime : Int)
    (fs : FS) (i : Nat) (hdot : lastDotIdx dName.data = some i) :
    cli_build_asset rootdir dName fpath mtime [] fs
      = .skipped ("skipping empty asset " ++ sanitizeStr dName) ∧
    (cli_build_asset rootdir dName fpath mtime [] fs).units = [] ∧
    (cli_build_asset rootdir dName fpath mtime [] fs).symbols = [] ∧
    (cli_build_asset rootdir dName fpath mtime [] fs).genSource = none ∧
    (cli_build_asset rootdir dName fpath mtime [] fs).isFatal = false := by
  have h : cli_build_asset rootdir dName fpath mtime [] fs
      = .skipped ("skipping empty asset " ++ sanitizeStr dName) := by
    simp [cli_build_asset, hdot, sanitizeStr]
  rw [h]
  exact ⟨rfl, rfl, rfl, rfl, rfl⟩

/-- Witness for the amended C7 at a concrete empty asset `e.txt`. -/
theorem C7_empty_asset_amended_witness :
    lastDotIdx "e.txt".data = some 1 ∧
    cli_build_asset "app" "e.txt" "app/assets/e.txt" 4 [] []
      = .skipped ("skipping empty asset " ++ sanitizeStr "e.txt") :=
  ⟨by decide,
    (C7_empty_asset_amended "app" "e.txt" "app/assets/e.txt" 4 [] 1 (by decide)).1⟩

/-- C3 counterexample: distinct discovered files with the same basename
collide on both registration paths — two assets `foo.txt` in different
subdirectories of `assets/` register the identical object path
`app/.objs/foo_txt.o`, and two source files `x.c` in different
subdirectories of `src/` register the identical object path
`app/.objs/x.c.o`. -/
theorem C3_counterexample :
    ((cli_build_asset "app" "foo.txt" "app/assets/a/foo.txt" 1 [65] []).units.map
        (·.opath) = ["app/.objs/foo_txt.o"]) ∧
    ((cli_build_asset "app" "foo.txt" "app/assets/b/foo.txt" 2 [66] []).units.map
        (·.opath) = ["app/.objs/foo_txt.o"]) ∧
    "app/assets/a/foo.txt" ≠ "app/assets/b/foo.txt" ∧
    ((cli_register_cfile "app" "x.c" "app/src/a/x.c" 1 []).1.map (·.opath)
      = some "app/.objs/x.c.o") ∧
    ((cli_register_cfile "app" "x.c" "app/src/b/x.c" 2 []).1.map (·.opath)
      = some "app/.objs/x.c.o") ∧
    "app/src/a/x.c" ≠ "app/src/b/x.c" := by decide

/-- C3 amended: every registered unit's logical name and object path
are deterministic functions of the file's basename alone, per
registration path — an asset registers `<objdir>/<sanitised basename>.o`
(and is independent of the directory it was found in), a source file
`<objdir>/<basename>.o` — so two assets sharing a basename, or two
source files sharing a basename, collide on logical name and object
path; whereas assets with distinct sanitised basenames, source files
with distinct basenames, and any asset/source pair (an asset's path
segment never contains a dot, a walker-discovered source's basename
always does) get distinct object paths. -/
theorem C3_logical_name_amended :
    (∀ rootdir dName f1 f2 mtime data fs,
      cli_build_asset rootdir dName f1 mtime data fs
        = cli_build_asset rootdir dName f2 mtime data fs) ∧
    (∀ rootdir dName fpath mtime data fs cf syms gen,
      cli_build_asset rootdir dName fpath mtime data fs = .registered cf syms gen →
      cf.opath = rootdir ++ "/.objs/" ++ sanitizeStr dName ++ ".o" ∧
      cf.fpath = rootdir ++ "/.objs/" ++ sanitizeStr dName ++ ".c") ∧
    (∀ rootdir d1 d2, sanitizeStr d1 ≠ sanitizeStr d2 →
      rootdir ++ "/.objs/" ++ sanitizeStr d1 ++ ".o"
        ≠ rootdir ++ "/.objs/" ++ sanitizeStr d2 ++ ".o") ∧
    (∀ rootdir dName fpath mtime fs cf,
      (cli_register_cfile rootdir dName fpath mtime fs).1 = some cf →
      cf.name = dName ∧ cf.opath = rootdir ++ "/.objs/" ++ dName ++ ".o") ∧
    (∀ rootdir d1 d2 : String, d1 ≠ d2 →
      rootdir ++ "/.objs/" ++ d1 ++ ".o" ≠ rootdir ++ "/.objs/" ++ d2 ++ ".o") ∧
    (∀ rootdir dName fpath mtime data fs cf syms gen dir sName mtime2 fs2 cfs,
      cli_build_asset rootdir dName fpath mtime data fs = .registered cf syms gen →
      (cli_register_cfile rootdir sName (dir ++ "/" ++ sName) mtime2 fs2).1
        = some cfs →
      cf.opath ≠ cfs.opath) := by
  refine ⟨fun _ _ _ _ _ _ _ => rfl,
    fun rootdir dName fpath mtime data fs cf syms gen h =>
      cli_build_asset_registered_paths rootdir dName fpath mtime data fs cf syms gen h,
    ?_,
    fun rootdir dName fpath mtime fs cf h =>
      cli_register_cfile_fields rootdir dName fpath mtime fs cf h,
    ?_, ?_⟩
  · intro rootdir d1 d2 hne heq
    exact hne (str_append_inj (rootdir ++ "/.objs/") ".o" _ _ heq)
  · intro rootdir d1 d2 hne heq
    exact hne (str_append_inj (rootdir ++ "/.objs/") ".o" _ _ heq)
  · intro rootdir dName fpath mtime data fs cf syms gen dir sName mtime2 fs2 cfs hA hS
    obtain ⟨hao, _⟩ :=
      cli_build_asset_registered_paths rootdir dName fpath mtime data fs cf syms gen hA
    obtain ⟨_, hso⟩ :=
      cli_register_cfile_fields rootdir sName (dir ++ "/" ++ sName) mtime2 fs2 cfs hS
    rw [hao, hso]
    intro heq
    have hseg : sanitizeStr dName = sName :=
      str_append_inj (rootdir ++ "/.objs/") ".o" _ _ heq
    have hdot : '.' ∈ sName.data :=
      register_dName_has_dot rootdir dir sName mtime2 fs2 cfs hS
    rw [← hseg] at hdot
    exact sanitize_no_dot dName.data hdot

/-- Witness for the amended C3: directory-independence at a concrete
asset; distinct sanitised asset basenames, and distinct source
basenames, giving distinct object paths; and cross-path distinctness at
an asset and a source file both named `x.c`. -/
theorem C3_logical_name_amended_witness :
    (cli_build_asset "app" "a.txt" "app/assets/x/a.txt" 1 [9] []
      = cli_build_asset "app" "a.txt" "app/assets/y/a.txt" 1 [9] []) ∧
    ("app" ++ "/.objs/" ++ sanitizeStr "a.txt" ++ ".o"
      ≠ "app" ++ "/.objs/" ++ sanitizeStr "b.css" ++ ".o") ∧
    ("app" ++ "/.objs/" ++ "a.c" ++ ".o" ≠ "app" ++ "/.objs/" ++ "b.c" ++ ".o") ∧
    ({ mtime := 1, build := true, cpp := false, name := "x.c",
       fpath := "app/.objs/x_c.c", opath := "app/.objs/x_c.o" } : CFile).opath
      ≠ ({ mtime := 2, build := true, cpp := false, name := "x.c",
           fpath := "app/src/x.c", opath := "app/.objs/x.c.o" } : CFile).opath :=
  ⟨C3_logical_name_amended.1 "app" "a.txt" "app/assets/x/a.txt" "app/assets/y/a.txt"
      1 [9] [],
    C3_logical_name_amended.2.2.1 "app" "a.txt" "b.css" (by decide),
    C3_logical_name_amended.2.2.2.2.1 "app" "a.c" "b.c" (by decide),
    C3_logical_name_amended.2.2.2.2.2 "app" "x.c" "app/assets/x.c" 1 [9] []
      { mtime := 1, build := true, cpp := false, name := "x.c",
        fpath := "app/.objs/x_c.c", opath := "app/.objs/x_c.o" }
      (cli_write_asset "x" "c") (some (cli_gen_asset "x" "c" [9] 1))
      "app/src" "x.c" 2 []
      { mtime := 2, build := true, cpp := false, name := "x.c",
        fpath := "app/src/x.c", opath := "app/.objs/x.c.o" }
      (by decide) (by decide)⟩

/-- C2: when no registered unit is flagged for rebuild, no link step
runs and the build prints "nothing to be done"; when at least one is
flagged, exactly one link step runs, its argument vector listing every
registered unit's object path (reused ones included) in registry
insertion order, followed (after the middle flags) by `-o` and the
output path `<approot>/<appname>.so`. -/
theorem C2_conditional_relink (compiler rootdir appl : String) (units : List CFile)
    (fs : FS) (cxxlib : Option String) (ldflags : List String) :
    if units.any (·.build) then
      (cli_build_rest compiler rootdir appl units fs cxxlib ldflags).links
        = [cli_link_library compiler rootdir appl units cxxlib ldflags] ∧
      ∃ mid,
        (cli_build_rest compiler rootdir appl units fs cxxlib ldflags).links
          = [[compiler, "-shared"] ++ units.map (·.opath) ++ mid
              ++ ["-o", rootdir ++ "/" ++ appl ++ ".so"]]
    else
      (cli_build_rest compiler rootdir appl units fs cxxlib ldflags).links = [] ∧
      (cli_build_rest compiler rootdir appl units fs cxxlib ldflags).msgs
        = ["nothing to be done"] := by
  by_cases h : units.any (·.build)
  · rw [if_pos h]
    have hne : ¬ (compileLoop units fs).1.isEmpty := by
      rw [compileLoop_fst, List.isEmpty_iff, List.filter_eq_nil_iff]
      obtain ⟨u, hu, hb⟩ := List.any_eq_true.mp h
      exact fun hall => hall u hu hb
    constructor
    · simp [cli_build_rest, hne]
    · refine ⟨(if units.any (·.cpp) then
          [match cxxlib with | some l => "-l" ++ l | none => "-lstdc++"]
        else []) ++ ldflags, ?_⟩
      simp [cli_build_rest, hne, cli_link_library]
  · rw [if_neg h]
    have hemp : (compileLoop units fs).1.isEmpty := by
      rw [compileLoop_fst, List.isEmpty_iff, List.filter_eq_nil_iff]
      intro u hu hb
      exact h (List.any_eq_true.mpr ⟨u, hu, hb⟩)
    constructor <;> simp [cli_build_rest, hemp]

/-- C5 counterexample: with two same-named assets in different
subdirectories (a reachable project state), a second build immediately
after the first one, with no filesystem change in between, still
compiles a unit and relinks — the build is not idempotent for every
project state. -/
theorem C5_counterexample :
    exRun2.compiles ≠ [] ∧ exRun2.links ≠ [] ∧
    exRun2.msgs ≠ ["nothing to be done"] := by decide

/-- C5 amended: provided the registered units carry pairwise-distinct
object paths, the second of two consecutive builds with no filesystem
change performs zero compilations and zero link invocations and reports
"nothing to be done". -/
theorem C5_idempotent_amended (compiler rootdir appl : String) (protos : List CFile)
    (fs : FS) (cxxlib : Option String) (ldflags : List String)
    (hnd : (protos.map (·.opath)).Nodup) :
    (runOnce compiler rootdir appl protos
      (runOnce compiler rootdir appl protos fs cxxlib ldflags).fs cxxlib
      ldflags).compiles = [] ∧
    (runOnce compiler rootdir appl protos
      (runOnce compiler rootdir appl protos fs cxxlib ldflags).fs cxxlib
      ldflags).links = [] ∧
    (runOnce compiler rootdir appl protos
      (runOnce compiler rootdir appl protos fs cxxlib ldflags).fs cxxlib
      ldflags).msgs = ["nothing to be done"] := by
  set fs1 := (runOnce compiler rootdir appl protos fs cxxlib ldflags).fs with hfs1
  have hflag : ∀ v ∈ setFlags protos fs1, v.build = false := by
    intro v hv
    obtain ⟨w, hw, rfl⟩ := List.mem_map.mp hv
    show requiresRebuild w.mtime w.opath fs1 = false
    exact (requiresRebuild_eq_false_iff _ _ _).mpr
      (runOnce_fs_lookup compiler rootdir appl protos fs cxxlib ldflags hnd w hw)
  have hcl := compileLoop_all_false (setFlags protos fs1) fs1 hflag
  refine ⟨?_, ?_, ?_⟩ <;> simp [runOnce, cli_build_rest, hcl]

/-- Witness for the amended C5 on a two-unit registry with distinct
object paths. -/
theorem C5_idempotent_amended_witness :
    (exGoodProtos.map (·.opath)).Nodup ∧
    (runOnce "gcc" "app" "app" exGoodProtos
      (runOnce "gcc" "app" "app" exGoodProtos [] none []).fs none
      []).compiles = [] ∧
    (runOnce "gcc" "app" "app" exGoodProtos
      (runOnce "gcc" "app" "app" exGoodProtos [] none []).fs none
      []).msgs = ["nothing to be done"] :=
  ⟨by decide,
    (C5_idempotent_amended "gcc" "app" "app" exGoodProtos [] none [] (by decide)).1,
    (C5_idempotent_amended "gcc" "app" "app" exGoodProtos [] none [] (by decide)).2.2⟩

/-- C6: for every non-empty asset (bytes all < 256, as read from the
mmap'ed `u_int8_t` data), the generated source's byte array holds one
hex literal per asset byte — each literal denoting exactly that byte —
plus exactly one additional trailing `0x00` element; the reported
length constant is the byte size as an unsigned 32-bit value and does
not count the terminator. -/
theorem C6_asset_array (stem ext : String) (data : List Nat) (mtime : Int)
    (hne : data ≠ []) (hbytes : ∀ b ∈ data, b < 256) :
    (cli_gen_asset stem ext data mtime).lenConst = data.length % 2 ^ 32 ∧
    (data.length < 2 ^ 32 →
      (cli_gen_asset stem ext data mtime).lenConst = data.length) ∧
    (cli_gen_asset stem ext data mtime).arrayTokens.length = data.length + 1 ∧
    (cli_gen_asset stem ext data mtime).arrayTokens.take data.length
      = data.map (fun b => hexByte b ++ ",") ∧
    (∀ b ∈ data, hexLitVal (hexByte b) = some b) ∧
    (cli_gen_asset stem ext data mtime).arrayTokens.drop data.length = ["0x00"] ∧
    hexLitVal "0x00" = some 0 := by
  have hmap : data.map (fun b => hexByte (b % 256) ++ ",")
      = data.map (fun b => hexByte b ++ ",") := by
    apply List.map_congr_left
    intro b hb
    rw [Nat.mod_eq_of_lt (hbytes b hb)]
  refine ⟨rfl, ?_, ?_, ?_, ?_, ?_, by decide⟩
  · intro h
    simp only [cli_gen_asset]
    omega
  · simp [cli_gen_asset]
  · rw [show (cli_gen_asset stem ext data mtime).arrayTokens
        = data.map (fun b => hexByte b ++ ",") ++ ["0x00"] by
      simp [cli_gen_asset, hmap]]
    rw [show data.length = (data.map (fun b => hexByte b ++ ",")).length by
      simp]
    exact List.take_left _ _
  · exact fun b hb => hexByte_val b (hbytes b hb)
  · rw [show (cli_gen_asset stem ext data mtime).arrayTokens
        = data.map (fun b => hexByte b ++ ",") ++ ["0x00"] by
      simp [cli_gen_asset, hmap]]
    rw [show data.length = (data.map (fun b => hexByte b ++ ",")).length by
      simp]
    exact List.drop_left _ _

/-- Witness for C6 at the three-byte asset `0x00 0xff 0x10`. -/
theorem C6_asset_array_witness :
    (cli_gen_asset "a" "txt" [0, 255, 16] 7).lenConst = 3 ∧
    (cli_gen_asset "a" "txt" [0, 255, 16] 7).arrayTokens
      = ["0x00,", "0xff,", "0x10,", "0x00"] := by
  have h := C6_asset_array "a" "txt" [0, 255, 16] 7 (by decide) (by decide)
  exact ⟨h.2.1 (by norm_num), by decide⟩

/-- C8: a non-empty asset whose object is up to date (an object exists
with exactly the source's mtime) is still registered as a compilation
unit flagged `build = false`, with no companion source generated, and
the three `extern` forward declarations (byte array, length, mtime) are
still emitted into the shared asset header. -/
theorem C8_reuse_still_registered (rootdir dName fpath : String) (mtime : Int)
    (data : List Nat) (fs : FS) (i : Nat)
    (hdot : lastDotIdx dName.data = some i) (hne : data ≠ [])
    (hobj : fsLookup fs (rootdir ++ "/.objs/" ++ sanitizeStr dName ++ ".o")
      = some mtime) :
    cli_build_asset rootdir dName fpath mtime data fs
      = .registered
          { mtime := mtime, build := false, cpp := false,
            name := String.mk ((sanitize dName.data).take i),
            fpath := rootdir ++ "/.objs/" ++ sanitizeStr dName ++ ".c",
            opath := rootdir ++ "/.objs/" ++ sanitizeStr dName ++ ".o" }
          (cli_write_asset (String.mk ((sanitize dName.data).take i))
            (String.mk ((sanitize dName.data).drop (i + 1))))
          none := by
  have hreq : requiresRebuild mtime
      (rootdir ++ "/.objs/" ++ sanitizeStr dName ++ ".o") fs = false :=
    (requiresRebuild_eq_false_iff _ _ _).mpr hobj
  have hlen : ¬ data.length = 0 := by simpa using hne
  simp only [sanitizeStr] at hreq ⊢
  simp [cli_build_asset, hdot, hlen, hreq]

/-- Witness for C8: asset `logo.png` with an up-to-date object. -/
theorem C8_reuse_still_registered_witness :
    (cli_build_asset "app" "logo.png" "app/assets/logo.png" 5 [1, 2]
        [("app/.objs/logo_png.o", 5)]).units.map (·.build) = [false] ∧
    (cli_build_asset "app" "logo.png" "app/assets/logo.png" 5 [1, 2]
        [("app/.objs/logo_png.o", 5)]).symbols
      = cli_write_asset "logo" "png" ∧
    (cli_build_asset "app" "logo.png" "app/assets/logo.png" 5 [1, 2]
        [("app/.objs/logo_png.o", 5)]).genSource = none := by
  have h := C8_reuse_still_registered "app" "logo.png" "app/assets/logo.png" 5
    [1, 2] [("app/.objs/logo_png.o", 5)] 4 (by decide) (by decide) (by decide)
  rw [h]
  exact ⟨by decide, by decide, by decide⟩

/-- C9: the supervisor waits on the specific child pid and succeeds iff
that child's status shows a zero exit code, no terminating signal and
no core dump; any failure yields the fatal generic "check output"
error.  In the compile loop, the spawn trace is an initial segment of
the flagged units in registry order — so no unit is ever spawned twice
(no retry) — and the loop aborts iff some flagged unit's subprocess
failed. -/
theorem C9_supervisor (pid : Nat) (wait : Nat → Nat) (units : List CFile)
    (st : CFile → Nat) :
    (cli_spawn_proc pid wait = Except.ok () ↔
      (WEXITSTATUS (wait pid) = 0 ∧ WTERMSIG (wait pid) = 0 ∧
        WCOREDUMP (wait pid) = false)) ∧
    (cli_spawn_proc pid wait = Except.ok () ∨
      cli_spawn_proc pid wait = Except.error "subprocess trouble, check output") ∧
    (∃ t, units.filter (·.build) = (compileTrace units st).1 ++ t) ∧
    ((compileTrace units st).2 = true ↔
      ∃ u ∈ units, u.build = true ∧ spawnFailed (st u) = true) := by
  refine ⟨?_, ?_, ?_, ?_⟩
  · have hstep : cli_spawn_proc pid wait = Except.ok ()
        ↔ spawnFailed (wait pid) = false := by
      unfold cli_spawn_proc spawnCheck
      cases h : spawnFailed (wait pid) <;> simp [h]
    rw [hstep, spawnFailed_false_iff]
  · unfold cli_spawn_proc spawnCheck
    cases h : spawnFailed (wait pid) <;> simp [h]
  · rw [compileTrace_eq]
    refine ⟨((units.filter (·.build)).dropWhile
      (fun u => !spawnFailed (st u))).drop 1, ?_⟩
    rw [List.append_assoc, List.take_append_drop, List.takeWhile_append_dropWhile]
  · rw [compileTrace_eq]
    simp [List.any_eq_true, List.mem_filter, and_assoc]

/-- C10: a regular file discovered under the source tree (full path
`dir ++ "/" ++ name` as the walker builds it) whose name either has no
`'.'` or whose suffix from the last `'.'` is neither `".c"` nor
`".cpp"` is silently ignored: no compilation unit is registered, no
diagnostic is printed, and the build continues. -/
theorem C10_ignore_non_source (rootdir dir dName : String) (mtime : Int) (fs : FS)
    (h : ∀ e, lastDotSuffix dName.data = some e →
      e ≠ ".c".data ∧ e ≠ ".cpp".data) :
    cli_register_cfile rootdir dName (dir ++ "/" ++ dName) mtime fs = (none, []) :=
  register_walker_ignored rootdir dir dName mtime fs h

/-- Witness for C10: `notes.txt` under `app/src` is ignored with no
output. -/
theorem C10_ignore_non_source_witness :
    cli_register_cfile "app" "notes.txt" ("app/src" ++ "/" ++ "notes.txt") 1 []
      = (none, []) :=
  C10_ignore_non_source "app" "app/src" "notes.txt" 1 []
    (fun e he => by cases he; exact ⟨by decide, by decide⟩)

end KoreCli
